import Mathlib

/-!
Verification of the conversation persistence and reconciliation layer
(`backend/conversation_history_manager.py`).

The embedding models one stored transcript as a structure; the Python code
keeps it as a JSON dict with keys `conversation_id`, `created_at`,
optionally `updated_at`, and `messages`.  Timestamps are opaque strings:
the Python code samples `datetime.utcnow().isoformat()` separately for each
appended message; the embedding passes one `now` string per operation,
which is enough because no verified property depends on the clock values
themselves.  Imported history entries arrive either as dicts or as objects
with `.role`/`.content` attributes; both shapes reduce to a (role, content)
pair, modelled by `HistoryEntry`.
-/

namespace ConvStore

/-- One element of a transcript's `messages` list: a dict with keys
`role`, `content` and `timestamp` in the source. -/
structure Message where
  role : String
  content : String
  timestamp : String
deriving Repr, DecidableEq

/-- One element of the caller-supplied `conversation_history` argument of
`save_interaction`: only `role` and `content` are read from it
(lines 129-130 of the source, with `""` defaults for missing dict keys). -/
structure HistoryEntry where
  role : String
  content : String
deriving Repr, DecidableEq

/-- The persisted conversation document.  `updated_at` is `none` when the
JSON object has no `updated_at` key. -/
structure Transcript where
  conversation_id : String
  created_at : String
  updated_at : Option String
  messages : List Message
deriving Repr, DecidableEq

/-- The empty structure `_load_from_storage` synthesizes for a missing key
(lines 69-73 and 82-86): the requested id, `created_at` set to the current
time, no `updated_at` key, and an empty `messages` list. -/
def freshTranscript (conversation_id now : String) : Transcript :=
  ⟨conversation_id, now, none, []⟩

/-- The duplicate test of the merge loop (lines 132-135):
`any(m.get("role") == role and m.get("content") == content for m in messages)`.
Note the comparison is plain string equality on both fields. -/
def containsPair (messages : List Message) (role content : String) : Bool :=
  messages.any fun m => m.role == role && m.content == content

/-- The history-merge loop of `save_interaction` (lines 127-142): for each
entry in order, append it to `messages` unless `messages` (as grown so far)
already holds an identical (role, content) pair. -/
def mergeHistory : List Message → List HistoryEntry → String → List Message
  | messages, [], _ => messages
  | messages, e :: rest, now =>
    if containsPair messages e.role e.content then
      mergeHistory messages rest now
    else
      mergeHistory (messages ++ [⟨e.role, e.content, now⟩]) rest now

/-- `save_interaction` (lines 104-167), at the transcript level: merge the
supplied history into the loaded messages, append the `user` question and
the `assistant` answer, keep `conversation_id` and `created_at` as loaded,
and set `updated_at`.  (`_save_to_storage` then writes this document back;
a Python `conversation_history=None` behaves as the empty list here, since
`if conversation_history:` skips the loop for both.) -/
def saveInteraction (t : Transcript) (question answer : String)
    (conversation_history : List HistoryEntry) (now : String) : Transcript :=
  let messages := mergeHistory t.messages conversation_history now
  let messages := messages ++ [⟨"user", question, now⟩, ⟨"assistant", answer, now⟩]
  ⟨t.conversation_id, t.created_at, some now, messages⟩

/-- Python's `str.lower`, for the ASCII range the role comparisons use:
each character lowercased independently (`Char.toLower` maps A-Z to a-z
and keeps every other character). -/
def lowerStr (s : String) : String :=
  String.mk (s.data.map Char.toLower)

/-- `format_as_prompt_template` (lines 169-196): empty string for an empty
(or absent) `messages` list, otherwise a loop accumulating one line per
`user`/`assistant` message (role compared after `.lower()`), joined by
newlines. -/
def formatAsPromptTemplate (t : Transcript) : String :=
  if t.messages.isEmpty then ""
  else
    let formatted_lines := t.messages.foldl (fun acc m =>
      if lowerStr m.role == "user" then acc ++ ["Human: " ++ m.content]
      else if lowerStr m.role == "assistant" then acc ++ ["Assistant: " ++ m.content]
      else acc) ([] : List String)
    String.intercalate "\n" formatted_lines

/-- `get_conversation_history` (lines 198-209): the stored `messages` list
verbatim. -/
def getConversationHistory (t : Transcript) : List Message :=
  t.messages

/-- Outcome of one raw local-file read attempt in `_load_from_storage`
(lines 76-86): the file is absent, or it parses to a transcript, or
opening/parsing it raises (the source has no handler there, so such a
fault propagates unmodified). -/
inductive LocalReadResult where
  | absent
  | ok (t : Transcript)
  | ioFault (msg : String)
deriving Repr, DecidableEq

/-- Outcome of one raw S3 read attempt in `_load_from_storage`: the `try`
at lines 62-64 covers `get_object`, the body read and `json.loads`, and may
produce a parsed transcript, a `ClientError` carrying an error code and a
rendered message (`str(e)`), or any other exception (a network-level
botocore fault, a JSON decode failure) — the `except` at line 65 names only
`ClientError`, so the last kind is uncaught there. -/
inductive S3ReadResult where
  | ok (t : Transcript)
  | clientError (code : String) (msg : String)
  | otherFault (msg : String)
deriving Repr, DecidableEq

/-- `_load_from_storage` for the local-file backend (lines 76-86):
a missing file yields a fresh empty transcript; any other fault of the
read propagates as raised. -/
def loadFromStorageLocal (readFile : String → LocalReadResult)
    (conversation_id now : String) : Except String Transcript :=
  match readFile conversation_id with
  | .absent => .ok (freshTranscript conversation_id now)
  | .ok t => .ok t
  | .ioFault msg => .error msg

/-- `_load_from_storage` for the S3 backend (lines 60-75): a `ClientError`
whose code is `"NoSuchKey"` yields a fresh empty transcript; any other
`ClientError` is re-raised as
`Exception("Error loading conversation from S3: " + str(e))`; an exception
that is not a `ClientError` is not caught and propagates unmodified. -/
def loadFromStorageS3 (readObject : String → S3ReadResult)
    (conversation_id now : String) : Except String Transcript :=
  match readObject conversation_id with
  | .ok t => .ok t
  | .clientError code msg =>
    if code == "NoSuchKey" then .ok (freshTranscript conversation_id now)
    else .error ("Error loading conversation from S3: " ++ msg)
  | .otherFault msg => .error msg

/-- The (role, content) dedup key of a stored message. -/
def pairOf (m : Message) : String × String :=
  (m.role, m.content)

/-- Membership of a (role, content) key in a list of keys. -/
def hasPair (ps : List (String × String)) (role content : String) : Bool :=
  ps.any fun p => p.1 == role && p.2 == content

/-- Spec-side characterization of which imported-history entries the merge
keeps, written from the spec's words ("for each entry, in the order given,
append it as a Message only if no existing Message in the transcript
matches on (role, content)"): a recursive filter over the entries, tracking
the transcript's key set as it grows.  To be compared with `mergeHistory`,
the translation of the source loop. -/
def specKeptEntries : List (String × String) → List HistoryEntry → List HistoryEntry
  | _, [] => []
  | ps, e :: rest =>
    if hasPair ps e.role e.content then specKeptEntries ps rest
    else e :: specKeptEntries (ps ++ [(e.role, e.content)]) rest

/-- The loop's duplicate test only looks at (role, content) keys. -/
lemma containsPair_eq_hasPair (msgs : List Message) (r c : String) :
    containsPair msgs r c = hasPair (msgs.map pairOf) r c := by
  induction msgs with
  | nil => rfl
  | cons m ms ih =>
    simp only [containsPair, hasPair, List.map_cons, List.any_cons] at *
    rw [ih]
    rfl

/-- The merge loop appends exactly the entries `specKeptEntries` selects,
in order, after the loaded messages. -/
lemma mergeHistory_eq (msgs : List Message) (h : List HistoryEntry) (now : String) :
    mergeHistory msgs h now =
      msgs ++ (specKeptEntries (msgs.map pairOf) h).map
        (fun e => (⟨e.role, e.content, now⟩ : Message)) := by
  induction h generalizing msgs with
  | nil => simp [mergeHistory, specKeptEntries]
  | cons e rest ih =>
    simp only [mergeHistory, specKeptEntries, containsPair_eq_hasPair]
    by_cases hc : hasPair (msgs.map pairOf) e.role e.content = true
    · rw [if_pos hc, if_pos hc, ih]
    · rw [if_neg hc, if_neg hc, ih]
      have hmap : (msgs ++ [(⟨e.role, e.content, now⟩ : Message)]).map pairOf
          = msgs.map pairOf ++ [(e.role, e.content)] := by
        simp [pairOf]
      rw [hmap]
      simp

/-- A key present in a list of messages stays present after appending. -/
lemma containsPair_append_left (msgs ext : List Message) (r c : String)
    (h : containsPair msgs r c = true) :
    containsPair (msgs ++ ext) r c = true := by
  simp only [containsPair, List.any_append, Bool.or_eq_true] at *
  exact Or.inl h

/-- When every entry's key is already present, the merge is a no-op. -/
lemma mergeHistory_all_present (msgs : List Message) (h : List HistoryEntry)
    (now : String) (hall : ∀ e ∈ h, containsPair msgs e.role e.content = true) :
    mergeHistory msgs h now = msgs := by
  induction h with
  | nil => rfl
  | cons e rest ih =>
    simp only [mergeHistory]
    rw [if_pos (hall e (List.mem_cons_self e rest))]
    exact ih fun x hx => hall x (List.mem_cons_of_mem e hx)

/-- After the merge, every supplied entry's key is present in the result. -/
lemma mergeHistory_mem_after (msgs : List Message) (h : List HistoryEntry)
    (now : String) :
    ∀ e ∈ h, containsPair (mergeHistory msgs h now) e.role e.content = true := by
  induction h generalizing msgs with
  | nil => intro e he; cases he
  | cons e rest ih =>
    intro x hx
    simp only [mergeHistory]
    by_cases hc : containsPair msgs e.role e.content = true
    · rw [if_pos hc]
      rcases List.mem_cons.mp hx with rfl | hx2
      · rw [mergeHistory_eq]
        exact containsPair_append_left _ _ _ _ hc
      · exact ih msgs x hx2
    · rw [if_neg hc]
      rcases List.mem_cons.mp hx with rfl | hx2
      · rw [mergeHistory_eq]
        refine containsPair_append_left _ _ _ _ ?_
        simp [containsPair, List.any_append]
      · exact ih _ x hx2

/-- The entries the merge keeps have pairwise-distinct keys, none of them
already present in the starting key set. -/
lemma specKeptEntries_nodup_fresh (ps : List (String × String))
    (h : List HistoryEntry) :
    ((specKeptEntries ps h).map (fun e => (e.role, e.content))).Nodup
    ∧ ∀ p ∈ (specKeptEntries ps h).map (fun e => (e.role, e.content)),
        hasPair ps p.1 p.2 = false := by
  induction h generalizing ps with
  | nil => simp [specKeptEntries]
  | cons e rest ih =>
    simp only [specKeptEntries]
    by_cases hc : hasPair ps e.role e.content = true
    · rw [if_pos hc]
      exact ih ps
    · rw [if_neg hc]
      obtain ⟨hnd, hfresh⟩ := ih (ps ++ [(e.role, e.content)])
      have hc0 : hasPair ps e.role e.content = false := by
        exact Bool.not_eq_true _ ▸ eq_false_of_ne_true hc
      refine ⟨?_, ?_⟩
      · rw [List.map_cons]
        refine List.nodup_cons.mpr ⟨?_, hnd⟩
        intro hmem
        have hfa := hfresh _ hmem
        simp [hasPair, List.any_append] at hfa
      · intro p hp
        rw [List.map_cons] at hp
        rcases List.mem_cons.mp hp with rfl | hp2
        · exact hc0
        · have hfa := hfresh p hp2
          simp only [hasPair, List.any_append, Bool.or_eq_false_iff] at hfa
          exact hfa.1

/-- The spec-side line renderer for one message: `Human:`/`Assistant:`
lines for the two known roles after lowercasing, nothing for any other
role. -/
def renderLine (m : Message) : Option String :=
  if lowerStr m.role == "user" then some ("Human: " ++ m.content)
  else if lowerStr m.role == "assistant" then some ("Assistant: " ++ m.content)
  else none

/-- The rendering loop of `format_as_prompt_template` collects exactly the
lines `renderLine` yields, in message order. -/
lemma foldLines_eq (msgs : List Message) (init : List String) :
    msgs.foldl (fun acc m =>
        if lowerStr m.role == "user" then acc ++ ["Human: " ++ m.content]
        else if lowerStr m.role == "assistant" then acc ++ ["Assistant: " ++ m.content]
        else acc) init
      = init ++ msgs.filterMap renderLine := by
  induction msgs generalizing init with
  | nil => simp
  | cons m ms ih =>
    simp only [List.foldl_cons, List.filterMap_cons, renderLine]
    by_cases h1 : (lowerStr m.role == "user") = true
    · rw [if_pos h1, if_pos h1, ih]
      simp
    · rw [if_neg h1, if_neg h1]
      by_cases h2 : (lowerStr m.role == "assistant") = true
      · rw [if_pos h2, if_pos h2, ih]
        simp
      · rw [if_neg h2, if_neg h2, ih]

/-- An element of a block occurring twice contributes at least two to the
count. -/
lemma two_le_count_of_two_blocks (P B : List (String × String))
    (x : String × String) (hx : x ∈ B) :
    2 ≤ List.count x (P ++ B ++ B) := by
  have h1 : 0 < List.count x B := List.count_pos_iff.mpr hx
  simp only [List.count_append]
  omega

/-- C1: save_interaction stores the previously stored messages, followed by
the merged non-duplicate imported-history entries in their given order,
followed by a user message holding the question and an assistant message
holding the answer; on an empty transcript with no imported history the
stored list is exactly the question/answer pair. -/
theorem save_interaction_ordering (t : Transcript) (question answer : String)
    (history : List HistoryEntry) (now cid now0 : String) :
    (saveInteraction t question answer history now).messages =
      t.messages
        ++ (specKeptEntries (t.messages.map pairOf) history).map
            (fun e => (⟨e.role, e.content, now⟩ : Message))
        ++ [⟨"user", question, now⟩, ⟨"assistant", answer, now⟩]
    ∧ (saveInteraction (freshTranscript cid now0) question answer [] now).messages
        = [⟨"user", question, now⟩, ⟨"assistant", answer, now⟩] := by
  constructor
  · show mergeHistory t.messages history now ++ _ = _
    rw [mergeHistory_eq]
  · rfl

/-- C2: an imported-history entry is appended only when no existing message
carries the same (role, content) pair; in particular, on a transcript
already holding the user/hi and assistant/hello turns, resending exactly
that history plus a fresh question/answer yields four messages, the first
two not duplicated. -/
theorem save_interaction_dedup (ts1 ts2 cid c0 question answer now : String) :
    (∀ (msgs : List Message) (h : List HistoryEntry) (nw : String),
        (∀ e ∈ h, containsPair msgs e.role e.content = true) →
        mergeHistory msgs h nw = msgs)
    ∧ (saveInteraction
          ⟨cid, c0, none, [⟨"user", "hi", ts1⟩, ⟨"assistant", "hello", ts2⟩]⟩
          question answer [⟨"user", "hi"⟩, ⟨"assistant", "hello"⟩] now).messages
        = [⟨"user", "hi", ts1⟩, ⟨"assistant", "hello", ts2⟩,
           ⟨"user", question, now⟩, ⟨"assistant", answer, now⟩] := by
  constructor
  · exact fun msgs h nw hall => mergeHistory_all_present msgs h nw hall
  · show mergeHistory _ _ now ++ _ = _
    rw [mergeHistory_all_present]
    · rfl
    · intro e he
      rcases List.mem_cons.mp he with rfl | he2
      · rfl
      · rcases List.mem_cons.mp he2 with rfl | he3
        · rfl
        · cases he3

/-- C7: the loaded messages list is always an initial segment of the list
written back by save_interaction; the operation only appends at the end. -/
theorem save_interaction_append_only (t : Transcript) (question answer : String)
    (history : List HistoryEntry) (now : String) :
    ∃ s, (saveInteraction t question answer history now).messages
        = t.messages ++ s := by
  refine ⟨(specKeptEntries (t.messages.map pairOf) history).map
      (fun e => (⟨e.role, e.content, now⟩ : Message))
      ++ [⟨"user", question, now⟩, ⟨"assistant", answer, now⟩], ?_⟩
  show mergeHistory t.messages history now ++ _ = _
  rw [mergeHistory_eq]
  simp

/-- C8: save_interaction keeps the loaded conversation_id and created_at,
sets updated_at to the operation time, and a freshly synthesized transcript
has no updated_at. -/
theorem save_interaction_frame (t : Transcript) (question answer : String)
    (history : List HistoryEntry) (now cid now0 : String) :
    (saveInteraction t question answer history now).conversation_id
        = t.conversation_id
    ∧ (saveInteraction t question answer history now).created_at = t.created_at
    ∧ (saveInteraction t question answer history now).updated_at = some now
    ∧ (freshTranscript cid now0).updated_at = none :=
  ⟨rfl, rfl, rfl, rfl⟩

/-- C9: calling save_interaction twice with the same question and answer
appends the user/assistant pair a second time — the second call adds
exactly that pair (the resent imported history merges to nothing), and the
final transcript counts the question key and the answer key at least twice
each. -/
theorem save_interaction_retry_duplicates (cid now0 question answer : String)
    (history : List HistoryEntry) (now1 now2 : String) :
    (saveInteraction
        (saveInteraction (freshTranscript cid now0) question answer history now1)
        question answer history now2).messages
      = (saveInteraction (freshTranscript cid now0) question answer history now1).messages
        ++ [⟨"user", question, now2⟩, ⟨"assistant", answer, now2⟩]
    ∧ 2 ≤ (((saveInteraction
        (saveInteraction (freshTranscript cid now0) question answer history now1)
        question answer history now2).messages.map pairOf).count ("user", question))
    ∧ 2 ≤ (((saveInteraction
        (saveInteraction (freshTranscript cid now0) question answer history now1)
        question answer history now2).messages.map pairOf).count ("assistant", answer)) := by
  have hall : ∀ e ∈ history,
      containsPair ((saveInteraction (freshTranscript cid now0) question answer
        history now1).messages) e.role e.content = true := by
    intro e he
    show containsPair (mergeHistory [] history now1
      ++ [⟨"user", question, now1⟩, ⟨"assistant", answer, now1⟩]) e.role e.content = true
    exact containsPair_append_left _ _ _ _ (mergeHistory_mem_after [] history now1 e he)
  have hfirst : (saveInteraction
        (saveInteraction (freshTranscript cid now0) question answer history now1)
        question answer history now2).messages
      = (saveInteraction (freshTranscript cid now0) question answer history now1).messages
        ++ [⟨"user", question, now2⟩, ⟨"assistant", answer, now2⟩] := by
    show mergeHistory ((saveInteraction (freshTranscript cid now0) question answer
        history now1).messages) history now2 ++ _ = _
    rw [mergeHistory_all_present _ _ _ hall]
  have hshape : ((saveInteraction
        (saveInteraction (freshTranscript cid now0) question answer history now1)
        question answer history now2).messages.map pairOf)
      = ((mergeHistory [] history now1).map pairOf)
        ++ [("user", question), ("assistant", answer)]
        ++ [("user", question), ("assistant", answer)] := by
    rw [hfirst]
    have hms : (saveInteraction (freshTranscript cid now0) question answer
        history now1).messages
        = mergeHistory [] history now1
          ++ [(⟨"user", question, now1⟩ : Message), ⟨"assistant", answer, now1⟩] := rfl
    rw [hms]
    simp [pairOf]
  refine ⟨hfirst, ?_, ?_⟩
  · rw [hshape]
    exact two_le_count_of_two_blocks _ _ _ (List.mem_cons_self _ _)
  · rw [hshape]
    exact two_le_count_of_two_blocks _ _ _
      (List.mem_cons_of_mem _ (List.mem_cons_self _ _))

/-- C10: within one merge, each candidate is checked against the list as it
grows, so the entries appended by one call have pairwise-distinct
(role, content) keys, none of which was present in the loaded messages. -/
theorem merge_no_internal_duplicates (msgs : List Message)
    (history : List HistoryEntry) (now : String) :
    ∃ s, mergeHistory msgs history now = msgs ++ s
      ∧ (s.map pairOf).Nodup
      ∧ (s.map pairOf).all
          (fun p => !hasPair (msgs.map pairOf) p.1 p.2) = true := by
  refine ⟨(specKeptEntries (msgs.map pairOf) history).map
      (fun e => (⟨e.role, e.content, now⟩ : Message)),
    mergeHistory_eq msgs history now, ?_, ?_⟩
  · have hmm : (((specKeptEntries (msgs.map pairOf) history).map
        (fun e => (⟨e.role, e.content, now⟩ : Message))).map pairOf)
        = (specKeptEntries (msgs.map pairOf) history).map
            (fun e => (e.role, e.content)) := by
      simp [pairOf]
    rw [hmm]
    exact (specKeptEntries_nodup_fresh _ _).1
  · rw [List.all_eq_true]
    intro p hp
    have hp2 : p ∈ (specKeptEntries (msgs.map pairOf) history).map
        (fun e => (e.role, e.content)) := by
      simpa [pairOf] using hp
    have hfa := (specKeptEntries_nodup_fresh (msgs.map pairOf) history).2 p hp2
    simp [hfa]

/-- C3: for a conversation id whose key is absent — the local file does not
exist, or the remote store reports NoSuchKey — load returns a transcript
with an empty messages list and created_at set to the current time, without
raising, in both backends. -/
theorem load_missing_key (readFile : String → LocalReadResult)
    (readObject : String → S3ReadResult) (cid now m : String)
    (hL : readFile cid = .absent)
    (hS : readObject cid = .clientError "NoSuchKey" m) :
    loadFromStorageLocal readFile cid now = .ok ⟨cid, now, none, []⟩
    ∧ loadFromStorageS3 readObject cid now = .ok ⟨cid, now, none, []⟩ := by
  constructor
  · simp [loadFromStorageLocal, hL, freshTranscript]
  · simp [loadFromStorageS3, hS, freshTranscript]

/-- Witness for C3: a concrete never-seen id against concrete backends. -/
theorem load_missing_key_witness :
    loadFromStorageLocal (fun _ => .absent) "never-seen-id" "T0"
        = .ok ⟨"never-seen-id", "T0", none, []⟩
    ∧ loadFromStorageS3 (fun _ => .clientError "NoSuchKey" "missing")
        "never-seen-id" "T0" = .ok ⟨"never-seen-id", "T0", none, []⟩ :=
  load_missing_key (fun _ => .absent)
    (fun _ => .clientError "NoSuchKey" "missing") "never-seen-id" "T0" "missing"
    rfl rfl

/-- C4 counterexample: on an S3 AccessDenied fault whose rendered message
is "denied", load raises an exception whose message is the wrapped
"Error loading conversation from S3: denied", not the original fault —
the fault is re-raised wrapped, not propagated unmodified. -/
theorem load_fault_wrapped_counterexample :
    loadFromStorageS3 (fun _ => .clientError "AccessDenied" "denied") "c1" "T0"
        = .error "Error loading conversation from S3: denied"
    ∧ loadFromStorageS3 (fun _ => .clientError "AccessDenied" "denied") "c1" "T0"
        ≠ .error "denied" := by
  constructor
  · rfl
  · intro hcontra
    simp [loadFromStorageS3] at hcontra

/-- C4 (amended): on any backend read fault other than NotFound, load
raises an error rather than returning an empty transcript and performs no
internal recovery; the fault propagates unmodified — always for the
local-file backend, and for the object-store backend whenever the fault is
not a ClientError — except that a non-NoSuchKey ClientError is re-raised
as a new exception whose message embeds the original fault. -/
theorem load_fault_propagation (readFile : String → LocalReadResult)
    (readObjectCE readObjectNet : String → S3ReadResult)
    (cid now code mL mC mN : String)
    (hL : readFile cid = .ioFault mL)
    (hS : readObjectCE cid = .clientError code mC)
    (hcode : (code == "NoSuchKey") = false)
    (hN : readObjectNet cid = .otherFault mN) :
    loadFromStorageLocal readFile cid now = .error mL
    ∧ loadFromStorageS3 readObjectCE cid now
        = .error ("Error loading conversation from S3: " ++ mC)
    ∧ loadFromStorageS3 readObjectNet cid now = .error mN := by
  refine ⟨?_, ?_, ?_⟩
  · simp [loadFromStorageLocal, hL]
  · simp [loadFromStorageS3, hS, hcode]
  · simp [loadFromStorageS3, hN]

/-- Witness for C4: a permission-denied ClientError and a network-level
fault on concrete backends. -/
theorem load_fault_propagation_witness :
    loadFromStorageLocal (fun _ => .ioFault "denied") "c1" "T0" = .error "denied"
    ∧ loadFromStorageS3 (fun _ => .clientError "AccessDenied" "denied") "c1" "T0"
        = .error ("Error loading conversation from S3: " ++ "denied")
    ∧ loadFromStorageS3 (fun _ => .otherFault "connection timed out") "c1" "T0"
        = .error "connection timed out" :=
  load_fault_propagation (fun _ => .ioFault "denied")
    (fun _ => .clientError "AccessDenied" "denied")
    (fun _ => .otherFault "connection timed out") "c1" "T0" "AccessDenied"
    "denied" "denied" "connection timed out" rfl rfl (by decide) rfl

/-- C5 counterexample: an imported entry whose role differs from a stored
message's role only in letter case (User vs user, identical content) is
not treated as a duplicate — the merge appends it. -/
theorem merge_role_case_counterexample :
    mergeHistory [⟨"user", "hi", "t0"⟩] [⟨"User", "hi"⟩] "t1"
        = [⟨"user", "hi", "t0"⟩, ⟨"User", "hi", "t1"⟩]
    ∧ lowerStr "User" = "user" := by
  constructor
  · rfl
  · rfl

/-- C5 (amended): the merge's duplicate test compares roles by exact
string equality, with no case normalization — whenever the roles differ as
strings (even if only in case) and the contents coincide, the entry is
appended; lowercasing of roles happens only in prompt rendering. -/
theorem merge_role_case_sensitive (r1 r2 c ts now : String)
    (hne : (r1 == r2) = false) :
    mergeHistory [⟨r1, c, ts⟩] [⟨r2, c⟩] now
        = [⟨r1, c, ts⟩, ⟨r2, c, now⟩] := by
  simp [mergeHistory, containsPair, hne]

/-- Witness for C5: roles "user" and "User", equal up to case, are not
deduplicated. -/
theorem merge_role_case_sensitive_witness :
    mergeHistory [⟨"user", "hey", "t0"⟩] [⟨"User", "hey"⟩] "t1"
        = [⟨"user", "hey", "t0"⟩, ⟨"User", "hey", "t1"⟩] :=
  merge_role_case_sensitive "user" "User" "hey" "t0" "t1" (by decide)

/-- C6: format_as_prompt_template yields the empty string on an empty
transcript, and otherwise one line per message in order — Human-prefixed
for role user and Assistant-prefixed for role assistant, case-insensitively
— joined by newlines, omitting any other role; a system-role message is
dropped from the rendering yet returned verbatim by
get_conversation_history. -/
theorem format_prompt_rendering (t : Transcript) (cid ca c ts q ts2 : String) :
    (t.messages = [] → formatAsPromptTemplate t = "")
    ∧ formatAsPromptTemplate t
        = String.intercalate "\n" (t.messages.filterMap renderLine)
    ∧ getConversationHistory t = t.messages
    ∧ formatAsPromptTemplate ⟨cid, ca, none, [⟨"system", c, ts⟩, ⟨"user", q, ts2⟩]⟩
        = "Human: " ++ q
    ∧ getConversationHistory ⟨cid, ca, none, [⟨"system", c, ts⟩, ⟨"user", q, ts2⟩]⟩
        = [⟨"system", c, ts⟩, ⟨"user", q, ts2⟩] := by
  refine ⟨?_, ?_, rfl, ?_, rfl⟩
  · intro hmsg
    simp [formatAsPromptTemplate, hmsg]
  · by_cases hmsg : t.messages = []
    · simp [formatAsPromptTemplate, hmsg]
      rfl
    · rw [formatAsPromptTemplate,
        if_neg (by simpa [List.isEmpty_iff] using hmsg)]
      rw [foldLines_eq]
      rfl
  · rw [formatAsPromptTemplate, if_neg (by simp)]
    rw [foldLines_eq]
    have hsys : renderLine ⟨"system", c, ts⟩ = none := rfl
    have husr : renderLine ⟨"user", q, ts2⟩ = some ("Human: " ++ q) := rfl
    show String.intercalate "\n"
      (List.filterMap renderLine [⟨"system", c, ts⟩, ⟨"user", q, ts2⟩]) = _
    rw [List.filterMap_cons, hsys, List.filterMap_cons, husr, List.filterMap_nil]
    rfl

end ConvStore
